import Mathlib

/-!
Verification development for `bench.py`, an HTTP host benchmarking tool.

The shallow embedding below follows the Python source closely:

* `Response` models `requests.Response` restricted to the two fields the
  program reads: `status_code` (a Python `int`, modelled as `ℤ`) and the
  elapsed-time value the program computes in milliseconds
  (`response.elapsed.microseconds / 1000`, modelled as `ℚ`).
* Network behaviour is an oracle `Net : String → ℕ → TransportEvent`
  giving, for each URL, the transport-level result of the i-th GET issued
  against it.  `requests.get` either yields a response or raises one of the
  `requests.exceptions.RequestException` subclasses (timeout, connection
  refused, DNS failure, TLS failure).
* Python exceptions are modelled with `Except PyError`; the float sentinel
  `float('inf')` used for the running minimum is modelled as `⊤ : WithTop ℚ`,
  whose order agrees with IEEE infinity on finite values.
-/

namespace Bench

structure Response where
  status_code : ℤ
  elapsed_ms : ℚ
  deriving DecidableEq, Repr

/-- What the network does on one GET attempt: either a response arrives or a
transport-level failure occurs. -/
inductive TransportEvent where
  | response (r : Response)
  | timeout
  | connectionRefused
  | dnsFailure
  | tlsFailure
  deriving DecidableEq, Repr

/-- The Python exceptions the program can raise or catch.  The first four
variants model `requests.exceptions.RequestException` subclasses; the last
two model the `Exception(...)` raises at `bench.py` lines 59 and 101. -/
inductive PyError where
  | timeoutError
  | connectionError
  | dnsError
  | tlsError
  | invalidArgument
  | invalidHost (host : String)
  deriving DecidableEq, Repr

/-- Whether an exception is an instance of
`requests.exceptions.RequestException` (the class caught at line 67;
`Timeout` is a subclass of it, so the tuple in the source catches exactly
this class). -/
def is_request_exception : PyError → Bool
  | .timeoutError => true
  | .connectionError => true
  | .dnsError => true
  | .tlsError => true
  | .invalidArgument => false
  | .invalidHost _ => false

/-- `requests.get`: returns the response or raises the transport failure as
a `RequestException` subclass. -/
def requests_get : TransportEvent → Except PyError Response
  | .response r => .ok r
  | .timeout => .error .timeoutError
  | .connectionRefused => .error .connectionError
  | .dnsFailure => .error .dnsError
  | .tlsFailure => .error .tlsError

/-- Network oracle: the transport event for the i-th request sent to a URL. -/
abbrev Net := String → ℕ → TransportEvent

/-- `HostHttpBenchmark.get_response` (lines 63-68): one GET with the
exception handler `except (RequestException, Timeout): return None`.
`call` indexes which sequential request to this URL this is. -/
def get_response (net : Net) (url : String) (timeout : ℚ) (call : ℕ) :
    Except PyError (Option Response) :=
  match requests_get (net url call) with
  | .ok r => .ok (some r)
  | .error e => if is_request_exception e then .ok none else .error e

/-- The outcome the i-th request to `url` produces once transport failures
are absorbed: `some r` for a received response, `none` for an error. -/
def execute_outcome (net : Net) (url : String) (call : ℕ) : Option Response :=
  match net url call with
  | .response r => some r
  | _ => none

/-- The list comprehension of line 61, sequential calls in order; a raised
exception in any call would abort the whole comprehension. -/
def get_responses_from (net : Net) (url : String) (timeout : ℚ) :
    List ℕ → Except PyError (List (Option Response))
  | [] => .ok []
  | i :: rest =>
    match get_response net url timeout i with
    | .error e => .error e
    | .ok v =>
      match get_responses_from net url timeout rest with
      | .error e => .error e
      | .ok vs => .ok (v :: vs)

/-- `HostHttpBenchmark.get_response_list` (lines 57-61): raises for
`count <= 0`, otherwise performs `count` sequential GETs.  `count` is a
Python `int`, so it is modelled as `ℤ`. -/
def get_response_list (net : Net) (url : String) (timeout : ℚ) (count : ℤ) :
    Except PyError (List (Option Response)) :=
  if count ≤ 0 then .error .invalidArgument
  else get_responses_from net url timeout (List.range count.toNat)

/-- The mutable state of the aggregation loop in `HostTestReport.__init__`
(lines 18-39): counters, running min/max and the latency sum. -/
structure AggState where
  success : ℕ
  failed : ℕ
  errors : ℕ
  min : WithTop ℚ
  max : ℚ
  sum : ℚ
  deriving DecidableEq, Repr

/-- Initial state: `min = float('inf')`, `max = -1`, counters zero. -/
def agg_init : AggState :=
  { success := 0, failed := 0, errors := 0, min := ⊤, max := -1, sum := 0 }

/-- One iteration of the classification loop (lines 22-37). -/
def agg_step (s : AggState) (o : Option Response) : AggState :=
  match o with
  | none => { s with errors := s.errors + 1 }
  | some r =>
    if r.status_code = 200 then
      { s with
        success := s.success + 1
        sum := s.sum + r.elapsed_ms
        max := if s.max < r.elapsed_ms then r.elapsed_ms else s.max
        min := if s.min > (r.elapsed_ms : WithTop ℚ) then (r.elapsed_ms : WithTop ℚ) else s.min }
    else if 400 ≤ r.status_code ∧ r.status_code < 600 then
      { s with failed := s.failed + 1 }
    else
      s

/-- The whole loop over the response list. -/
def aggregate (response_list : List (Option Response)) : AggState :=
  response_list.foldl agg_step agg_init

structure HostTestReport where
  host : String
  success : ℕ
  failed : ℕ
  errors : ℕ
  min : WithTop ℚ
  max : ℚ
  avg : ℚ
  deriving DecidableEq, Repr

/-- `HostTestReport.__init__` (lines 18-39): run the loop, then
`avg = elapsed_time_sum / success if success else 0`. -/
def HostTestReport.init (host : String) (response_list : List (Option Response)) :
    HostTestReport :=
  let s := aggregate response_list
  { host := host, success := s.success, failed := s.failed, errors := s.errors,
    min := s.min, max := s.max,
    avg := if s.success = 0 then 0 else s.sum / (s.success : ℚ) }

/-- Python `f"{x:.1f}"` on a finite value: one decimal digit, rounding to
nearest (ties are unreachable at the exact values this development
evaluates). -/
def formatFixed1 (q : ℚ) : String :=
  let t : ℤ := round (q * 10)
  let sgn := if t < 0 then "-" else ""
  sgn ++ toString (t.natAbs / 10) ++ "." ++ toString (t.natAbs % 10)

/-- Python `f"{x:.1f}"` including the infinite sentinel:
`format(float('inf'), '.1f')` is the string `"inf"`. -/
def formatTop1 (q : WithTop ℚ) : String :=
  q.recTopCoe "inf" (fun x => formatFixed1 x)

/-- `HostTestReport.to_string` (lines 41-51): the rendered report text. -/
def HostTestReport.to_string (r : HostTestReport) : String :=
  "\n------------------------------------\n" ++
  "host    = " ++ r.host ++ "\n" ++
  "success = " ++ toString r.success ++ "\n" ++
  "failed  = " ++ toString r.failed ++ "\n" ++
  "errors  = " ++ toString r.errors ++ "\n" ++
  "max     = " ++ formatFixed1 r.max ++ " ms\n" ++
  "min     = " ++ formatTop1 r.min ++ " ms\n" ++
  "avg     = " ++ formatFixed1 r.avg ++ " ms\n"

/-- One character of the domain group `[a-zA-Z0-9.-]`. -/
def is_domain_char (c : Char) : Bool :=
  c.isAlpha || c.isDigit || c = '.' || c = '-'

/-- The TLD group `\.[a-zA-Z]{2,}`. -/
def is_tld (cs : List Char) : Bool :=
  match cs with
  | '.' :: rest => decide (2 ≤ rest.length) && rest.all Char.isAlpha
  | _ => false

/-- The optional path group `(/[^\s]*)?` followed by end of input. -/
def is_path_opt (cs : List Char) : Bool :=
  match cs with
  | [] => true
  | '/' :: rest => rest.all (fun c => !c.isWhitespace)
  | _ => false

/-- The scheme group `(https?)://`: strip it, or fail. -/
def strip_scheme : List Char → Option (List Char)
  | 'h' :: 't' :: 't' :: 'p' :: rest =>
    match rest with
    | 's' :: ':' :: '/' :: '/' :: r => some r
    | ':' :: '/' :: '/' :: r => some r
    | _ => none
  | _ => none

/-- Existence of a split of the text after the scheme into
`([a-zA-Z0-9.-]+)(\.[a-zA-Z]{2,})(/[^\s]*)?` — the regex matches exactly
when some split does. -/
def matches_after_scheme (cs : List Char) : Bool :=
  (List.range (cs.length + 1)).any fun i =>
    decide (1 ≤ i) && (cs.take i).all is_domain_char &&
      ((List.range (cs.length + 1)).any fun j =>
        is_tld ((cs.drop i).take j) && is_path_opt ((cs.drop i).drop j))

/-- `HttpHostTestService.validate_url` (lines 86-94): full-anchored match of
`^(https?)://([a-zA-Z0-9.-]+)(\.[a-zA-Z]{2,})(/[^\s]*)?$`. -/
def validate_url (url : String) : Bool :=
  match strip_scheme url.data with
  | some rest => matches_after_scheme rest
  | none => false

/-- `HttpHostTestService.test_host` (lines 96-101): validate, then run the
requests and build a report; raise for an invalid host. -/
def test_host (net : Net) (host : String) (timeout : ℚ) (count : ℤ) :
    Except PyError HostTestReport :=
  if validate_url host then
    match get_response_list net host timeout count with
    | .ok responses => .ok (HostTestReport.init host responses)
    | .error e => .error e
  else
    .error (.invalidHost host)

/-- The loop of `test_hosts` (lines 103-111): `reports` accumulates across
iterations; the `try` is around the whole loop, so the first raised
exception stops iteration but the accumulated list is still returned. -/
def test_hosts_loop (net : Net) (timeout : ℚ) (count : ℤ)
    (acc : List HostTestReport) : List String → List HostTestReport
  | [] => acc
  | host :: rest =>
    match test_host net host timeout count with
    | .ok r => test_hosts_loop net timeout count (acc ++ [r]) rest
    | .error _ => acc

/-- `HttpHostTestService.test_hosts` (lines 103-111), sequential mode. -/
def test_hosts (net : Net) (hosts : List String) (timeout : ℚ) (count : ℤ) :
    List HostTestReport :=
  test_hosts_loop net timeout count [] hosts

/-- `HttpHostTestService.test_hosts_parallel` (lines 113-129): every host is
submitted as its own task and each task's exception is caught individually,
so exactly the hosts whose `test_host` succeeds contribute a report.  The
completion (hence collection) order is scheduler-dependent in the source;
the model fixes input order, which the membership and cardinality claims
below do not depend on. -/
def test_hosts_parallel (net : Net) (hosts : List String) (timeout : ℚ) (count : ℤ) :
    List HostTestReport :=
  hosts.filterMap (fun host => (test_host net host timeout count).toOption)

/-- The report `test_host` produces for a valid host under oracle `net`. -/
def host_report (net : Net) (host : String) (timeout : ℚ) (count : ℤ) :
    HostTestReport :=
  HostTestReport.init host ((List.range count.toNat).map (execute_outcome net host))

/-- A response is counted by one of the three buckets of the classification
loop: an absorbed error, a `200`, or a `4xx`/`5xx` status. -/
def classified (o : Option Response) : Bool :=
  match o with
  | none => true
  | some r =>
    decide (r.status_code = 200) || decide (400 ≤ r.status_code ∧ r.status_code < 600)

/-- A fixed benign network oracle used to instantiate theorems: every
request receives status 200 after 10 ms. -/
def net0 : Net := fun _ _ => .response { status_code := 200, elapsed_ms := 10 }

/-- Five hosts, the third of which fails URL validation. -/
def hosts5 : List String :=
  ["https://a.com", "https://b.com", "ftp://bad.com", "https://c.com", "https://d.com"]

end Bench

namespace Bench

/-- Every transport event yields a normal return from `get_response`: each
failure variant raises a `RequestException` subclass and the handler catches
exactly that class. -/
theorem get_response_ok (net : Net) (url : String) (timeout : ℚ) (call : ℕ) :
    get_response net url timeout call = Except.ok (execute_outcome net url call) := by
  unfold get_response execute_outcome
  cases net url call <;> rfl

/-- The list comprehension maps `execute_outcome` over the call indices and
never raises. -/
theorem get_responses_from_ok (net : Net) (url : String) (timeout : ℚ)
    (l : List ℕ) :
    get_responses_from net url timeout l = Except.ok (l.map (execute_outcome net url)) := by
  induction l with
  | nil => rfl
  | cons i rest ih => simp [get_responses_from, get_response_ok, ih]

/-- C9: For every URL and timeout, a single request execution (`get_response`)
never propagates a transport-level failure as an exception to its caller:
for every behaviour of the network, the call returns normally, and any
timeout, connection, DNS, or TLS failure is absorbed into the `none`
(Error) outcome delivered by `execute_outcome`. -/
theorem c9_transport_errors_absorbed (net : Net) (url : String) (timeout : ℚ)
    (call : ℕ) :
    get_response net url timeout call = Except.ok (execute_outcome net url call) :=
  get_response_ok net url timeout call

/-- C7: The URL validator accepts `https://example.com` and
`http://example.com/path`, and rejects `ftp://example.com`, `example.com`
and `https://bad_domain`. -/
theorem c7_validator_cases :
    validate_url "https://example.com" = true ∧
    validate_url "http://example.com/path" = true ∧
    validate_url "ftp://example.com" = false ∧
    validate_url "example.com" = false ∧
    validate_url "https://bad_domain" = false := by
  refine ⟨by decide, by decide, by decide, by decide, by decide⟩

/-- C5: `get_response_list` raises `InvalidArgument` for every `count ≤ 0`;
for every `count ≥ 1` it returns normally with exactly `count` outcomes, the
i-th being the outcome of the i-th sequential call against the same URL. -/
theorem c5_get_response_list_spec (net : Net) (url : String) (timeout : ℚ)
    (count : ℤ) :
    (count ≤ 0 → get_response_list net url timeout count = Except.error .invalidArgument) ∧
    (1 ≤ count →
      get_response_list net url timeout count
          = Except.ok ((List.range count.toNat).map (execute_outcome net url)) ∧
      (((List.range count.toNat).map (execute_outcome net url)).length : ℤ) = count) := by
  constructor
  · intro h
    simp [get_response_list, h]
  · intro h
    have h0 : ¬ count ≤ 0 := by omega
    refine ⟨by simp [get_response_list, h0, get_responses_from_ok], ?_⟩
    simp only [List.length_map, List.length_range]
    omega

/-- C5 witness: instantiation at a concrete oracle and URL, with
`count = 0` (rejected) and `count = 2` (two outcomes in call order). -/
theorem c5_witness :
    (get_response_list net0 "https://a.com" 5 0 = Except.error .invalidArgument) ∧
    (get_response_list net0 "https://a.com" 5 2
        = Except.ok ((List.range (2 : ℤ).toNat).map (execute_outcome net0 "https://a.com")) ∧
      (((List.range (2 : ℤ).toNat).map (execute_outcome net0 "https://a.com")).length : ℤ) = 2) :=
  ⟨(c5_get_response_list_spec net0 "https://a.com" 5 0).1 (by decide),
   (c5_get_response_list_spec net0 "https://a.com" 5 2).2 (by decide)⟩

end Bench

namespace Bench

theorem aggregate_append (l : List (Option Response)) (o : Option Response) :
    aggregate (l ++ [o]) = agg_step (aggregate l) o := by
  simp [aggregate, List.foldl_append]

theorem if_lt_eq_max (a t : ℚ) : (if a < t then t else a) = max a t := by
  rcases lt_or_le a t with h | h
  · rw [if_pos h, max_eq_right h.le]
  · rw [if_neg (not_lt.mpr h), max_eq_left h]

theorem if_gt_eq_min (m : WithTop ℚ) (t : WithTop ℚ) :
    (if m > t then t else m) = min m t := by
  rcases lt_or_le t m with h | h
  · rw [if_pos h, min_eq_right h.le]
  · rw [if_neg (not_lt.mpr h), min_eq_left h]

/-- The classification step on a status-200 response: success is counted,
the latency enters the running sum, minimum and maximum. -/
theorem agg_step_ok200 (s : AggState) (t : ℚ) :
    agg_step s (some { status_code := 200, elapsed_ms := t })
      = { s with
          success := s.success + 1
          sum := s.sum + t
          max := max s.max t
          min := min s.min (t : WithTop ℚ) } := by
  simp [agg_step, if_lt_eq_max, if_gt_eq_min]

/-- C2 amended: appending an `Ok` outcome whose status is exactly 200
increments `success` and folds its latency into min, max and the average
(the average becomes the updated sum divided by the updated success count).
The original claim's range `[200, 300)` fails: see the counterexample. -/
theorem c2_success_updates_stats (host : String) (l : List (Option Response)) (t : ℚ) :
    (HostTestReport.init host (l ++ [some { status_code := 200, elapsed_ms := t }])).success
        = (HostTestReport.init host l).success + 1 ∧
    (HostTestReport.init host (l ++ [some { status_code := 200, elapsed_ms := t }])).min
        = min (HostTestReport.init host l).min (t : WithTop ℚ) ∧
    (HostTestReport.init host (l ++ [some { status_code := 200, elapsed_ms := t }])).max
        = max (HostTestReport.init host l).max t ∧
    (HostTestReport.init host (l ++ [some { status_code := 200, elapsed_ms := t }])).avg
        = ((aggregate l).sum + t) / (((aggregate l).success : ℚ) + 1) := by
  simp only [HostTestReport.init, aggregate_append, agg_step_ok200]
  refine ⟨trivial, trivial, trivial, ?_⟩
  have h : ¬ ((aggregate l).success + 1 = 0) := Nat.succ_ne_zero _
  simp only [h, if_false, if_neg h]
  push_cast
  ring_nf

/-- C2 counterexample: a 2xx status other than 200 (here 201) is not
counted as a success and its latency is not included; the claim's
`[200, 300)` range does not match the code's `status_code == 200` test. -/
theorem c2_counterexample_201 :
    (HostTestReport.init "h" [some { status_code := 201, elapsed_ms := 10 }]).success
        ≠ (HostTestReport.init "h" ([] : List (Option Response))).success + 1 ∧
    (HostTestReport.init "h" [some { status_code := 201, elapsed_ms := 10 }]).success = 0 ∧
    (HostTestReport.init "h" [some { status_code := 201, elapsed_ms := 10 }]).min = ⊤ := by
  refine ⟨by decide, by decide, by decide⟩

/-- Counting invariant of the loop, relative to any start state, for lists
whose members all fall in one of the three classified buckets. -/
theorem foldl_counts (l : List (Option Response)) :
    ∀ s : AggState, l.all classified = true →
      (l.foldl agg_step s).success + (l.foldl agg_step s).failed + (l.foldl agg_step s).errors
        = s.success + s.failed + s.errors + l.length := by
  induction l with
  | nil => intro s _; simp
  | cons o rest ih =>
    intro s h
    simp only [List.all_cons, Bool.and_eq_true] at h
    obtain ⟨h1, h2⟩ := h
    simp only [List.foldl_cons, List.length_cons]
    rw [ih _ h2]
    cases o with
    | none => simp [agg_step]; omega
    | some r =>
      simp only [classified, Bool.or_eq_true, decide_eq_true_eq] at h1
      rcases h1 with h200 | h45
      · simp [agg_step, h200]; omega
      · by_cases hx : r.status_code = 200
        · simp [agg_step, hx]; omega
        · simp [agg_step, hx, h45]; omega

/-- C3 amended: for every outcome sequence whose members all fall in the
three buckets the code counts (`None`, status 200, or status in
`[400, 600)`), the report satisfies `success + failed + errors = N`.
Unrestricted, the claim fails: see the counterexample with a status-300
response, which is counted in none of the buckets. -/
theorem c3_bucket_sum (host : String) (l : List (Option Response))
    (h : l.all classified = true) :
    (HostTestReport.init host l).success + (HostTestReport.init host l).failed
        + (HostTestReport.init host l).errors = l.length := by
  have h2 := foldl_counts l agg_init h
  simpa [HostTestReport.init, aggregate, agg_init] using h2

/-- C3 witness: a mixed classified sequence of length three. -/
theorem c3_witness :
    (HostTestReport.init "https://a.com"
          [some { status_code := 200, elapsed_ms := 10 },
           some { status_code := 404, elapsed_ms := 0 }, none]).success
      + (HostTestReport.init "https://a.com"
          [some { status_code := 200, elapsed_ms := 10 },
           some { status_code := 404, elapsed_ms := 0 }, none]).failed
      + (HostTestReport.init "https://a.com"
          [some { status_code := 200, elapsed_ms := 10 },
           some { status_code := 404, elapsed_ms := 0 }, none]).errors
      = ([some { status_code := 200, elapsed_ms := 10 },
          some { status_code := 404, elapsed_ms := 0 }, none] : List (Option Response)).length :=
  c3_bucket_sum "https://a.com" _ (by decide)

/-- C3 counterexample: a single status-300 response is dropped by every
bucket, so the counters sum to 0 while one request was issued. -/
theorem c3_counterexample_300 :
    ¬ ((HostTestReport.init "h" [some { status_code := 300, elapsed_ms := 0 }]).success
        + (HostTestReport.init "h" [some { status_code := 300, elapsed_ms := 0 }]).failed
        + (HostTestReport.init "h" [some { status_code := 300, elapsed_ms := 0 }]).errors
      = ([some { status_code := 300, elapsed_ms := 0 }] : List (Option Response)).length) := by
  decide

end Bench

namespace Bench

/-- C8: aggregating `[Ok(200,10ms), Ok(200,20ms), Ok(404,5ms), Error]`
yields `success=2, failed=1, errors=1, min=10, max=20, avg=15`. -/
theorem c8_concrete_aggregation :
    HostTestReport.init "https://a.com"
        [some { status_code := 200, elapsed_ms := 10 },
         some { status_code := 200, elapsed_ms := 20 },
         some { status_code := 404, elapsed_ms := 5 }, none]
      = { host := "https://a.com", success := 2, failed := 1, errors := 1,
          min := ((10 : ℚ) : WithTop ℚ), max := 20, avg := 15 } := by
  have hm1 : min (⊤ : WithTop ℚ) ((10 : ℚ) : WithTop ℚ) = ((10 : ℚ) : WithTop ℚ) :=
    min_eq_right le_top
  have hm2 : min (((10 : ℚ)) : WithTop ℚ) (((20 : ℚ)) : WithTop ℚ) = ((10 : ℚ) : WithTop ℚ) := by
    rw [← WithTop.coe_min]
    norm_num
  have hx1 : max (-1 : ℚ) 10 = 10 := max_eq_right (by norm_num)
  have hx2 : max (10 : ℚ) 20 = 20 := max_eq_right (by norm_num)
  norm_num [HostTestReport.init, aggregate, agg_step, agg_init, if_lt_eq_max, if_gt_eq_min,
    hm1, hm2, hx1, hx2]
  exact WithTop.coe_le_coe.mpr (by norm_num)

theorem agg_step_success_le (s : AggState) (o : Option Response) :
    s.success ≤ (agg_step s o).success := by
  cases o with
  | none => simp [agg_step]
  | some r =>
    simp only [agg_step]
    split_ifs <;> simp

theorem foldl_success_le (l : List (Option Response)) :
    ∀ s : AggState, s.success ≤ (l.foldl agg_step s).success := by
  induction l with
  | nil => intro s; simp
  | cons o rest ih =>
    intro s
    simp only [List.foldl_cons]
    exact le_trans (agg_step_success_le s o) (ih (agg_step s o))

/-- If the loop ends with the success counter it started with, no 200
branch ran, so the running minimum and maximum are untouched. -/
theorem foldl_no_success_minmax (l : List (Option Response)) :
    ∀ s : AggState, (l.foldl agg_step s).success = s.success →
      (l.foldl agg_step s).min = s.min ∧ (l.foldl agg_step s).max = s.max := by
  induction l with
  | nil => intro s _; exact ⟨rfl, rfl⟩
  | cons o rest ih =>
    intro s h
    simp only [List.foldl_cons] at h ⊢
    have hstep : (agg_step s o).success = s.success := by
      have h1 := agg_step_success_le s o
      have h2 := foldl_success_le rest (agg_step s o)
      omega
    have hmm : (agg_step s o).min = s.min ∧ (agg_step s o).max = s.max := by
      cases o with
      | none => simp [agg_step]
      | some r =>
        by_cases hx : r.status_code = 200
        · exfalso
          simp [agg_step, hx] at hstep
        · simp only [agg_step, if_neg hx]
          split_ifs <;> simp
    have hrec := ih (agg_step s o) (h.trans hstep.symm)
    exact ⟨hrec.1.trans hmm.1, hrec.2.trans hmm.2⟩

theorem formatTop1_top : formatTop1 ⊤ = "inf" := rfl

theorem formatFixed1_neg_one : formatFixed1 (-1) = "-1.0" := by
  have h : round ((-1 : ℚ) * 10) = -10 := by
    rw [show ((-1 : ℚ) * 10) = ((-10 : ℤ) : ℚ) by norm_num, round_intCast]
  simp only [formatFixed1, h]
  decide

theorem formatFixed1_zero : formatFixed1 0 = "0.0" := by
  have h : round ((0 : ℚ) * 10) = 0 := by
    rw [show ((0 : ℚ) * 10) = ((0 : ℤ) : ℚ) by norm_num, round_intCast]
  simp only [formatFixed1, h]
  decide

/-- C4 amended: with zero successes the report has `avg = 0` as claimed,
but min and max are not left undefined: they keep the numeric sentinels
`+infinity` and `-1`, and the report renderer turns exactly these
sentinels into the output text (`"inf"` and `"-1.0"`).  The original
claim's assertion that no sentinel leaks into the rendered output fails:
see the counterexample. -/
theorem c4_zero_success_sentinels (host : String) (l : List (Option Response))
    (h : (aggregate l).success = 0) :
    (HostTestReport.init host l).avg = 0 ∧
    (HostTestReport.init host l).min = ⊤ ∧
    (HostTestReport.init host l).max = -1 ∧
    formatTop1 (HostTestReport.init host l).min = "inf" ∧
    formatFixed1 (HostTestReport.init host l).max = "-1.0" := by
  have hmm := foldl_no_success_minmax l agg_init (by simpa [aggregate, agg_init] using h)
  have hmin : (HostTestReport.init host l).min = ⊤ := by
    simpa [HostTestReport.init, aggregate, agg_init] using hmm.1
  have hmax : (HostTestReport.init host l).max = -1 := by
    simpa [HostTestReport.init, aggregate, agg_init] using hmm.2
  have havg : (HostTestReport.init host l).avg = 0 := by
    simp [HostTestReport.init, h]
  refine ⟨havg, hmin, hmax, ?_, ?_⟩
  · rw [hmin]
    exact formatTop1_top
  · rw [hmax]
    exact formatFixed1_neg_one

/-- C4 witness: a single absorbed transport error. -/
theorem c4_witness :
    (HostTestReport.init "h" [none]).avg = 0 ∧
    (HostTestReport.init "h" [none]).min = ⊤ ∧
    (HostTestReport.init "h" [none]).max = -1 ∧
    formatTop1 (HostTestReport.init "h" [none]).min = "inf" ∧
    formatFixed1 (HostTestReport.init "h" [none]).max = "-1.0" :=
  c4_zero_success_sentinels "h" [none] (by decide)

/-- C4 counterexample: the report for one errored request renders the
sentinels `-1.0 ms` and `inf ms` straight into its output text. -/
theorem c4_counterexample_render :
    (HostTestReport.init "h" [none]).to_string
      = "\n------------------------------------\nhost    = h\nsuccess = 0\nfailed  = 0\nerrors  = 1\nmax     = -1.0 ms\nmin     = inf ms\navg     = 0.0 ms\n" := by
  have h1 : HostTestReport.init "h" [none]
      = { host := "h", success := 0, failed := 0, errors := 1, min := ⊤, max := -1, avg := 0 } := by
    decide
  rw [h1]
  simp only [HostTestReport.to_string, formatTop1_top, formatFixed1_neg_one, formatFixed1_zero]
  decide

end Bench

namespace Bench

theorem test_host_valid (net : Net) (host : String) (timeout : ℚ) (count : ℤ)
    (h1 : validate_url host = true) (h2 : 1 ≤ count) :
    test_host net host timeout count = Except.ok (host_report net host timeout count) := by
  have h0 : ¬ count ≤ 0 := by omega
  simp [test_host, h1, get_response_list, h0, get_responses_from_ok, host_report]

theorem test_host_invalid (net : Net) (host : String) (timeout : ℚ) (count : ℤ)
    (h1 : validate_url host = false) :
    test_host net host timeout count = Except.error (.invalidHost host) := by
  simp [test_host, h1]

theorem test_hosts_loop_eq (net : Net) (timeout : ℚ) (count : ℤ) (h : 1 ≤ count) :
    ∀ (hosts : List String) (acc : List HostTestReport),
      test_hosts_loop net timeout count acc hosts
        = acc ++ (hosts.takeWhile validate_url).map (fun x => host_report net x timeout count) := by
  intro hosts
  induction hosts with
  | nil => intro acc; simp [test_hosts_loop]
  | cons a rest ih =>
    intro acc
    cases hv : validate_url a with
    | false =>
      simp only [test_hosts_loop, test_host_invalid net a timeout count hv]
      simp [List.takeWhile_cons, hv]
    | true =>
      simp only [test_hosts_loop, test_host_valid net a timeout count hv h]
      rw [ih]
      simp [List.takeWhile_cons, hv]

/-- C10: sequential mode returns exactly the reports of the longest run of
hosts at the front of the list that pass validation, in input order:
iteration stops at the first invalid host, and the reports accumulated
before it are returned rather than discarded. -/
theorem c10_sequential_longest_valid_run (net : Net) (hosts : List String)
    (timeout : ℚ) (count : ℤ) (h : 1 ≤ count) :
    test_hosts net hosts timeout count
      = (hosts.takeWhile validate_url).map (fun x => host_report net x timeout count) := by
  simpa [test_hosts] using test_hosts_loop_eq net timeout count h hosts []

/-- C10 witness: a valid host, then an invalid one, then a valid one. -/
theorem c10_witness :
    test_hosts net0 ["https://a.com", "ftp://bad.com", "https://c.com"] 5 1
      = ((["https://a.com", "ftp://bad.com", "https://c.com"].takeWhile validate_url).map
          (fun x => host_report net0 x 5 1)) :=
  c10_sequential_longest_valid_run net0 ["https://a.com", "ftp://bad.com", "https://c.com"]
    5 1 (by decide)

theorem takeWhile_all_append {α : Type} (p : α → Bool) (pre post : List α) (bad : α)
    (h1 : ∀ x ∈ pre, p x = true) (h2 : p bad = false) :
    (pre ++ bad :: post).takeWhile p = pre := by
  induction pre with
  | nil => simp [List.takeWhile_cons, h2]
  | cons a rest ih =>
    have ha : p a = true := h1 a (by simp)
    have hrest : ∀ x ∈ rest, p x = true := fun x hx => h1 x (by simp [hx])
    simp [List.takeWhile_cons, ha, ih hrest]

/-- C1 amended: a host list with an invalid host does stop sequential mode
at that host, but the batch is not emptied: the reports of the valid hosts
before the invalid one are still returned (the invalid host and everything
after it contribute nothing).  The original claim's "returns zero reports"
fails whenever a valid host comes first: see the counterexample. -/
theorem c1_sequential_keeps_earlier_reports (net : Net) (pre post : List String)
    (bad : String) (timeout : ℚ) (count : ℤ)
    (h1 : ∀ x ∈ pre, validate_url x = true) (h2 : validate_url bad = false)
    (h3 : 1 ≤ count) :
    test_hosts net (pre ++ bad :: post) timeout count
      = pre.map (fun x => host_report net x timeout count) := by
  have h4 := test_hosts_loop_eq net timeout count h3 (pre ++ bad :: post) []
  simpa [test_hosts, takeWhile_all_append validate_url pre post bad h1 h2] using h4

/-- C1 witness: one valid host before the invalid one, one after. -/
theorem c1_witness :
    test_hosts net0 ["https://a.com", "ftp://bad.com", "https://c.com"] 5 1
      = ["https://a.com"].map (fun x => host_report net0 x 5 1) :=
  c1_sequential_keeps_earlier_reports net0 ["https://a.com"] ["https://c.com"]
    "ftp://bad.com" 5 1 (by decide) (by decide) (by decide)

/-- C1 counterexample: with a valid host followed by an invalid one,
sequential mode returns one report, not zero. -/
theorem c1_counterexample_nonzero_batch :
    (test_hosts net0 ["https://a.com", "ftp://bad.com"] 5 1).length = 1 := by
  decide

/-- C6: parallel mode catches each host's fatal condition individually:
the reports are exactly those of the hosts that pass validation, every
other host unaffected (stated up to the scheduler-dependent completion
order, which the model fixes to input order). -/
theorem c6_parallel_isolates_failures (net : Net) (hosts : List String)
    (timeout : ℚ) (count : ℤ) (h : 1 ≤ count) :
    test_hosts_parallel net hosts timeout count
      = (hosts.filter validate_url).map (fun x => host_report net x timeout count) := by
  induction hosts with
  | nil => rfl
  | cons a rest ih =>
    simp only [test_hosts_parallel] at ih
    cases hv : validate_url a with
    | false =>
      simp only [test_hosts_parallel, List.filterMap_cons,
        test_host_invalid net a timeout count hv, Except.toOption, List.filter_cons, hv]
      simpa using ih
    | true =>
      simp only [test_hosts_parallel, List.filterMap_cons,
        test_host_valid net a timeout count hv h, Except.toOption, List.filter_cons, hv]
      simpa using ih

/-- C6 witness: five hosts of which one is invalid give exactly four
reports, one per valid host. -/
theorem c6_witness :
    test_hosts_parallel net0 hosts5 5 1
      = (hosts5.filter validate_url).map (fun x => host_report net0 x 5 1) ∧
    ((hosts5.filter validate_url).map (fun x => host_report net0 x 5 1)).length = 4 :=
  ⟨c6_parallel_isolates_failures net0 hosts5 5 1 (by decide), by decide⟩

end Bench
